import Mathlib

/-!
Shallow embedding of `Scripts/check_docs.py`, a documentation link and
legacy-path checker.  Strings are modelled as `List Char`, filesystem paths as
their textual form (`List Char`), and the ambient filesystem (the results of
`Path.resolve`, `Path.exists`, `Path.glob`, `Path.read_text`) as explicit
parameters, since the script only observes the filesystem through those calls.
All definitions are executable and mirror the Python source line by line.
-/

/-- Python `str.isspace` character class (the characters stripped by
`str.strip()` with no arguments): ASCII whitespace, the C1 separators, and the
Unicode space separators. -/
def pySpace (c : Char) : Bool :=
  [' ', '\t', '\n', '\x0b', '\x0c', '\r',
   '\x1c', '\x1d', '\x1e', '\x1f', '\x85', ' ', ' ',
   ' ', ' ', ' ', ' ', ' ', ' ', ' ',
   ' ', ' ', ' ', ' ',
   ' ', ' ', ' ', ' ', '　'].contains c

/-- Python `str.strip()`: drop leading and trailing whitespace. -/
def pyStrip (s : List Char) : List Char :=
  ((s.dropWhile pySpace).reverse.dropWhile pySpace).reverse

/-- Python `s.split(sep, 1)[0]`: the part of `s` before the first occurrence
of `sep` (all of `s` when `sep` does not occur). -/
def splitBefore (sep : Char) (s : List Char) : List Char :=
  s.takeWhile (fun c => c != sep)

/-- Line-break characters recognised by Python `str.splitlines` (besides the
two-character sequence CR LF, handled separately). -/
def pyLineBreak (c : Char) : Bool :=
  ['\n', '\r', '\x0b', '\x0c', '\x1c', '\x1d', '\x1e', '\x85',
   ' ', ' '].contains c

/-- Worker for `pySplitlines`; `acc` holds the current line reversed. -/
def splitlinesAux : List Char → List Char → List (List Char)
  | acc, [] => if acc.isEmpty then [] else [acc.reverse]
  | acc, '\r' :: '\n' :: rest => acc.reverse :: splitlinesAux [] rest
  | acc, c :: rest =>
    if pyLineBreak c then acc.reverse :: splitlinesAux [] rest
    else splitlinesAux (c :: acc) rest

/-- Python `str.splitlines()`: split at line boundaries, no trailing empty
line for text ending in a line break. -/
def pySplitlines (s : List Char) : List (List Char) :=
  splitlinesAux [] s

/-- Value of an ASCII hexadecimal digit, `none` for other characters. -/
def hexDigit (c : Char) : Option Nat :=
  if 48 ≤ c.toNat && c.toNat ≤ 57 then some (c.toNat - 48)
  else if 97 ≤ c.toNat && c.toNat ≤ 102 then some (c.toNat - 97 + 10)
  else if 65 ≤ c.toNat && c.toNat ≤ 70 then some (c.toNat - 65 + 10)
  else none

/-- UTF-8 continuation byte test. -/
def contByte (b : Nat) : Bool := 128 ≤ b && b ≤ 191

/-- Permitted second byte after a three-byte UTF-8 lead (excludes overlong
encodings after `0xE0` and surrogates after `0xED`). -/
def utf8Cont2 (b b2 : Nat) : Bool :=
  if b = 0xE0 then 0xA0 ≤ b2 && b2 ≤ 0xBF
  else if b = 0xED then 0x80 ≤ b2 && b2 ≤ 0x9F
  else contByte b2

/-- Permitted second byte after a four-byte UTF-8 lead (excludes overlong
encodings after `0xF0` and values beyond `U+10FFFF` after `0xF4`). -/
def utf8Cont2F (b b2 : Nat) : Bool :=
  if b = 0xF0 then 0x90 ≤ b2 && b2 ≤ 0xBF
  else if b = 0xF4 then 0x80 ≤ b2 && b2 ≤ 0x8F
  else contByte b2

/-- The Unicode replacement character `U+FFFD`. -/
def replChar : Char := Char.ofNat 0xFFFD

/-- UTF-8 decoding with `errors='replace'` (replacement of maximal subparts),
as used by `urllib.parse.unquote`'s default error handler. -/
def utf8Decode : List Nat → List Char
  | [] => []
  | b :: rest =>
    if b ≤ 0x7F then Char.ofNat b :: utf8Decode rest
    else if 0xC2 ≤ b && b ≤ 0xDF then
      match rest with
      | [] => [replChar]
      | b2 :: rest2 =>
        if contByte b2 then
          Char.ofNat ((b - 0xC0) * 64 + (b2 - 0x80)) :: utf8Decode rest2
        else replChar :: utf8Decode (b2 :: rest2)
    else if 0xE0 ≤ b && b ≤ 0xEF then
      match rest with
      | [] => [replChar]
      | b2 :: rest2 =>
        if utf8Cont2 b b2 then
          match rest2 with
          | [] => [replChar]
          | b3 :: rest3 =>
            if contByte b3 then
              Char.ofNat ((b - 0xE0) * 4096 + (b2 - 0x80) * 64 + (b3 - 0x80))
                :: utf8Decode rest3
            else replChar :: utf8Decode (b3 :: rest3)
        else replChar :: utf8Decode (b2 :: rest2)
    else if 0xF0 ≤ b && b ≤ 0xF4 then
      match rest with
      | [] => [replChar]
      | b2 :: rest2 =>
        if utf8Cont2F b b2 then
          match rest2 with
          | [] => [replChar]
          | b3 :: rest3 =>
            if contByte b3 then
              match rest3 with
              | [] => [replChar]
              | b4 :: rest4 =>
                if contByte b4 then
                  Char.ofNat ((b - 0xF0) * 262144 + (b2 - 0x80) * 4096 +
                    (b3 - 0x80) * 64 + (b4 - 0x80)) :: utf8Decode rest4
                else replChar :: utf8Decode (b4 :: rest4)
            else replChar :: utf8Decode (b3 :: rest3)
        else replChar :: utf8Decode (b2 :: rest2)
    else replChar :: utf8Decode rest

/-- Tokenise a percent-encoded string: `%XY` with two hex digits becomes the
byte `16*X+Y` (`Sum.inl`), everything else stays a literal character
(`Sum.inr`), as in `urllib.parse.unquote`. -/
def pctTokens : List Char → List (Nat ⊕ Char)
  | '%' :: a :: b :: rest =>
    match hexDigit a, hexDigit b with
    | some x, some y => Sum.inl (16 * x + y) :: pctTokens rest
    | _, _ => Sum.inr '%' :: pctTokens (a :: b :: rest)
  | c :: rest => Sum.inr c :: pctTokens rest
  | [] => []

/-- Fold the token stream, decoding each maximal run of percent-escaped bytes
as UTF-8; `acc` holds the current byte run reversed. -/
def unquoteAux : List Nat → List (Nat ⊕ Char) → List Char
  | acc, [] => utf8Decode acc.reverse
  | acc, Sum.inl b :: rest => unquoteAux (b :: acc) rest
  | acc, Sum.inr c :: rest => utf8Decode acc.reverse ++ c :: unquoteAux [] rest

/-- Python `urllib.parse.unquote` with its default arguments
(`encoding='utf-8'`, `errors='replace'`). -/
def pyUnquote (s : List Char) : List Char :=
  unquoteAux [] (pctTokens s)

/-- `SKIP_PREFIXES` from the script: URI schemes whose targets are skipped. -/
def SKIP_PREFIXES : List (List Char) :=
  ["http://".toList, "https://".toList, "mailto:".toList, "tel:".toList,
   "javascript:".toList]

/-- The angle-bracket unwrapping step of `normalize_target`: a target written
`<...>` loses the brackets and is stripped again. -/
def unwrapAngle (t : List Char) : List Char :=
  if t.head? == some '<' && t.getLast? == some '>' then
    pyStrip ((t.drop 1).dropLast)
  else t

/-- `normalize_target` from the script: trim, unwrap angle brackets, discard
anchors, external schemes and targets that are empty after dropping the
fragment and query suffixes, and percent-decode what remains. -/
def normalize_target (t0 : List Char) : Option (List Char) :=
  let t1 := pyStrip t0
  if t1.isEmpty then none
  else
    let t2 := unwrapAngle t1
    if t2.head? == some '#' then none
    else if SKIP_PREFIXES.any (fun p => p.isPrefixOf t2) then none
    else
      let t3 := pyStrip (splitBefore '?' (splitBefore '#' t2))
      if t3.isEmpty then none
      else some (pyUnquote t3)

/-- `DOC_GLOBS` from the script: the glob patterns tried in order. -/
def DOC_GLOBS : List (List Char) :=
  ["Docs/**/*.md".toList, "README.md".toList, "CHANGELOG.md".toList,
   "TODO.md".toList, "API_REFERENCE.md".toList, "CONTRIBUTING.md".toList,
   "AGENTS.md".toList, "WARP.md".toList]

/-- `LEGACY_PATHS` from the script, in declaration order (a Python `dict`
iterates in insertion order): legacy path substring, replacement. -/
def LEGACY_PATHS : List (List Char × List Char) :=
  [("Views/OnboardingFlowView.swift".toList,
    "Views/Onboarding/OnboardingFlowView.swift".toList),
   ("/Views/OnboardingFlowView.swift".toList,
    "Views/Onboarding/OnboardingFlowView.swift".toList),
   ("Views/SettingsView.swift".toList,
    "Views/Settings/SettingsView.swift".toList),
   ("/Views/SettingsView.swift".toList,
    "Views/Settings/SettingsView.swift".toList)]

/-- The filesystem the script observes, as explicit data: `root` is the
resolved `ROOT` constant, `canon` models `Path.resolve()` (canonicalisation of
an absolute-or-relative path string; total, never raising), and `pathExists`
models `Path.exists()`. -/
structure Fs where
  root : List Char
  canon : List Char → List Char
  pathExists : List Char → Bool

/-- `pathlib`-style join of a directory and a relative path segment. -/
def pathJoin (base seg : List Char) : List Char :=
  base ++ '/' :: seg

/-- `Path.parent` of a path string: everything before the last separator
(`"."` when there is none, as in `pathlib`). -/
def parentDir (p : List Char) : List Char :=
  if p.contains '/' then
    (((p.reverse.dropWhile (fun c => c != '/')).drop 1).reverse)
  else ['.']

/-- `resolve_target` from the script: a separator-rooted target is joined to
the project root with its leading separators stripped (no canonicalisation —
`ROOT` is already resolved); any other target is joined to the referencing
document's directory and canonicalised by `Path.resolve()`.  Total, so it
never raises, matching `Path.resolve(strict=False)`. -/
def resolve_target (fs : Fs) (base : List Char) (target : List Char) :
    List Char :=
  if target.head? == some '/' then
    pathJoin fs.root (target.dropWhile (fun c => c == '/'))
  else fs.canon (pathJoin base target)

/-- Python's substring test `needle in hay` for strings. -/
def containsSub : List Char → List Char → Bool
  | n, [] => n.isEmpty
  | n, c :: t => n.isPrefixOf (c :: t) || containsSub n t

/-- One attempted match of `LINK_RE` (`\[[^\]]*\]\(([^)]+)\)`) just after an
opening `[`: the label is the run of non-`]` characters, which must be
followed by `](`, then the target is the nonempty run of non-`)` characters,
which must be closed by `)`.  Returns the captured target and the rest of the
line after the closing parenthesis. -/
def linkTail (s : List Char) : Option (List Char × List Char) :=
  match s.dropWhile (fun c => c != ']') with
  | ']' :: '(' :: r2 =>
    match r2.takeWhile (fun c => c != ')'), r2.dropWhile (fun c => c != ')') with
    | tgt, ')' :: r4 => if tgt.isEmpty then none else some (tgt, r4)
    | _, _ => none
  | _ => none

/-- Worker for `findLinks`: scan left to right; at each `[` attempt a match,
and on success continue after the match (`re.finditer` yields non-overlapping
matches); on failure resume at the next character.  The fuel argument only
bounds the recursion and is always sufficient when it starts at the length of
the line. -/
def findLinksAux : Nat → List Char → List (List Char)
  | 0, _ => []
  | _ + 1, [] => []
  | fuel + 1, c :: rest =>
    if c == '[' then
      match linkTail rest with
      | some (tgt, rem) => tgt :: findLinksAux fuel rem
      | none => findLinksAux fuel rest
    else findLinksAux fuel rest

/-- All capture groups of `LINK_RE.finditer(line)`, in order. -/
def findLinks (line : List Char) : List (List Char) :=
  findLinksAux line.length line

/-- A missing-link finding, as accumulated in `missing_links`. -/
structure MissingLink where
  path : List Char
  lineNo : Nat
  rawTarget : List Char
deriving DecidableEq

/-- A legacy-reference finding, as accumulated in `legacy_refs`. -/
structure LegacyRef where
  path : List Char
  lineNo : Nat
  legacy : List Char
  replacement : List Char
deriving DecidableEq

/-- The fence-delimiter test of the scan loop: the stripped line starts with
three backticks or three tildes. -/
def lineFence (line : List Char) : Bool :=
  let s := pyStrip line
  "```".toList.isPrefixOf s || "~~~".toList.isPrefixOf s

/-- The missing-link findings contributed by one scanned line: one finding per
`LINK_RE` match whose normalised target resolves to a non-existent path,
carrying the raw (pre-normalisation) target. -/
def lineMissing (fs : Fs) (path dir : List Char) (n : Nat) (line : List Char) :
    List MissingLink :=
  (findLinks line).filterMap fun raw =>
    match normalize_target raw with
    | none => none
    | some t =>
      if fs.pathExists (resolve_target fs dir t) then none
      else some ⟨path, n, raw⟩

/-- The legacy-reference findings contributed by one scanned line: one finding
per legacy key, in declaration order, that occurs as a substring of the line. -/
def lineLegacy (path : List Char) (n : Nat) (line : List Char) :
    List LegacyRef :=
  LEGACY_PATHS.filterMap fun pr =>
    if containsSub pr.1 line then some ⟨path, n, pr.1, pr.2⟩ else none

/-- The body of the per-line loop (lines 79–95 of the script): a fence
delimiter toggles `in_code_block` and is otherwise skipped; a line inside a
code block is skipped; any other line contributes its missing-link and
legacy-reference findings, appended in order. -/
def scanStep (fs : Fs) (path dir : List Char)
    (st : Bool × List MissingLink × List LegacyRef) (nl : Nat × List Char) :
    Bool × List MissingLink × List LegacyRef :=
  if lineFence nl.2 then (!st.1, st.2.1, st.2.2)
  else if st.1 then st
  else (st.1, st.2.1 ++ lineMissing fs path dir nl.1 nl.2,
        st.2.2 ++ lineLegacy path nl.1 nl.2)

/-- Scanning one document's text: split into lines, number them from 1, and
fold the per-line loop starting outside any code block with empty
accumulators. -/
def scanDocText (fs : Fs) (path text : List Char) :
    List MissingLink × List LegacyRef :=
  let r := (List.enumFrom 1 (pySplitlines text)).foldl
    (scanStep fs path (parentDir path)) (false, [], [])
  (r.2.1, r.2.2)

/-- The file loop of `main` (lines 75–95): read each discovered file in turn
— a read failure propagates, aborting the run — and accumulate both finding
lists across files in file order. -/
def mainLoop {ε : Type} (fs : Fs) (read : List Char → Except ε (List Char)) :
    List (List Char) → Except ε (List MissingLink × List LegacyRef)
  | [] => .ok ([], [])
  | p :: ps =>
    match read p with
    | .error e => .error e
    | .ok text =>
      match mainLoop fs read ps with
      | .error e => .error e
      | .ok (m, l) =>
        .ok ((scanDocText fs p text).1 ++ m, (scanDocText fs p text).2 ++ l)

/-- Decimal rendering of a line number, as Python string interpolation does. -/
def natChars (n : Nat) : List Char :=
  (Nat.repr n).toList

/-- `path.relative_to(ROOT)` for the scanned paths, which all live under the
project root (for such paths this is the suffix after `root ++ "/"`; other
paths are returned unchanged — `relative_to` would raise there, but the
script never reports a path outside the root). -/
def relativeTo (root p : List Char) : List Char :=
  if (root ++ ['/']).isPrefixOf p then p.drop (root.length + 1) else p

/-- One line of the missing-links report section. -/
def fmtMissingLine (root : List Char) (f : MissingLink) : List Char :=
  "  - ".toList ++ relativeTo root f.path ++ [':'] ++ natChars f.lineNo ++
    " -> ".toList ++ f.rawTarget

/-- One line of the legacy-references report section. -/
def fmtLegacyLine (root : List Char) (f : LegacyRef) : List Char :=
  "  - ".toList ++ relativeTo root f.path ++ [':'] ++ natChars f.lineNo ++
    " uses ".toList ++ f.legacy ++ " (use ".toList ++ f.replacement ++ [')']

/-- The success line printed when there are no findings. -/
def okLine : List Char :=
  "Docs check OK: no missing links or legacy onboarding/settings paths.".toList

/-- The printed report (lines 97–114 of the script) as a list of output
lines: the missing-links section when non-empty (header, one line per finding
in order, blank line), then the legacy section likewise, then the success
line exactly when both finding lists are empty. -/
def reportOutput (root : List Char) (m : List MissingLink)
    (l : List LegacyRef) : List (List Char) :=
  (if m.isEmpty then []
   else "Missing documentation links:".toList ::
     (m.map (fmtMissingLine root) ++ [[]])) ++
  (if l.isEmpty then []
   else "Legacy path references:".toList ::
     (l.map (fmtLegacyLine root) ++ [[]])) ++
  (if m.isEmpty && l.isEmpty then [okLine] else [])

/-- `main` (followed by `sys.exit(main())`): run the file loop — an
unreadable file aborts the whole run with its error, producing no output —
then print the report and return exit status 1 when either finding list is
non-empty and 0 otherwise. -/
def mainRun {ε : Type} (fs : Fs) (read : List Char → Except ε (List Char))
    (paths : List (List Char)) : Except ε (List (List Char) × Nat) :=
  match mainLoop fs read paths with
  | .error e => .error e
  | .ok (m, l) =>
    .ok (reportOutput fs.root m l, if m.isEmpty && l.isEmpty then 0 else 1)

/-- `iter_doc_files`: glob every pattern in order, keep regular files,
deduplicate (the Python set comprehension) and sort lexicographically.  The
filesystem's answers are the explicit `glob` and `isFile` parameters. -/
def iter_doc_files (glob : List Char → List (List Char))
    (isFile : List Char → Bool) : List (List Char) :=
  List.insertionSort (fun a b => a ≤ b)
    (((DOC_GLOBS.flatMap glob).filter isFile).dedup)

/-- A concrete filesystem for evaluating the scanner: project root `/proj`,
no canonicalisation (no symlinks or dot segments to rewrite), and no path
exists. -/
def fs0 : Fs := ⟨"/proj".toList, id, fun _ => false⟩

/-- A concrete reader returning a one-line document with no links and no
legacy substrings for every path. -/
def readPlainDoc : List Char → Except Unit (List Char) :=
  fun _ => .ok "hello".toList

/-- A concrete reader that fails on every path. -/
def readFailing : List Char → Except Nat (List Char) :=
  fun _ => .error 7

/-- A concrete reader serving two documents: `/proj/A.md` ends in an unclosed
fenced code block hiding a dead link, `/proj/B.md` has the same dead link in
the open. -/
def readTwoDocs : List Char → Except Unit (List Char) :=
  fun p =>
    if p == "/proj/A.md".toList then .ok "```\n[x](/nope)".toList
    else .ok "[x](/nope)".toList
/-- C2: scanning a document carries a single boolean fence state, initially
`false`; a line whose stripped content starts with three backticks or tildes
toggles the state and a line entered while the state is `true` contributes no
missing-link and no legacy-reference finding. -/
theorem c2_fence_toggle_and_skip (fs : Fs) (path dir : List Char) (inB : Bool)
    (ms : List MissingLink) (ls : List LegacyRef) (n : Nat)
    (line text : List Char) :
    (lineFence line = true →
      scanStep fs path dir (inB, ms, ls) (n, line) = (!inB, ms, ls)) ∧
    (inB = true →
      (scanStep fs path dir (inB, ms, ls) (n, line)).2 = (ms, ls)) ∧
    scanDocText fs path text =
      (let r := (List.enumFrom 1 (pySplitlines text)).foldl
        (scanStep fs path (parentDir path)) (false, [], [])
       (r.2.1, r.2.2)) := by
  refine ⟨fun h => by simp [scanStep, h], fun h => ?_, rfl⟩
  by_cases hf : lineFence line <;> simp [scanStep, hf, h]

/-- C2 witness: at a concrete fence line the state toggles with no finding,
and a concrete link-bearing line entered inside a code block contributes
nothing. -/
theorem c2_fence_toggle_and_skip_wit :
    scanStep fs0 "p".toList "/proj".toList (false, [], [])
      (1, "```".toList) = (true, [], []) ∧
    (scanStep fs0 "p".toList "/proj".toList (true, [], [])
      (2, "[x](/nope)".toList)).2 = ([], []) :=
  ⟨(c2_fence_toggle_and_skip fs0 "p".toList "/proj".toList false [] [] 1
      "```".toList "".toList).1 (by decide),
   (c2_fence_toggle_and_skip fs0 "p".toList "/proj".toList true [] [] 2
      "[x](/nope)".toList "".toList).2.1 rfl⟩

/-- C10: a fence delimiter line is itself excluded from both checks — the
per-line step only toggles the state and adds no finding, whatever the line
also contains. -/
theorem c10_fence_line_excluded (fs : Fs) (path dir : List Char) (inB : Bool)
    (ms : List MissingLink) (ls : List LegacyRef) (n : Nat) (line : List Char)
    (h : lineFence line = true) :
    scanStep fs path dir (inB, ms, ls) (n, line) = (!inB, ms, ls) := by
  simp [scanStep, h]

/-- C10 witness: a concrete delimiter line carrying both a dead link and a
legacy path — both finding extractors are non-empty on it, yet the step adds
nothing. -/
theorem c10_fence_line_excluded_wit :
    scanStep fs0 "p".toList "/proj".toList (false, [], [])
      (1, "``` [x](/nope) /Views/SettingsView.swift".toList) =
      (true, [], []) ∧
    lineMissing fs0 "p".toList "/proj".toList 1
      "``` [x](/nope) /Views/SettingsView.swift".toList ≠ [] ∧
    lineLegacy "p".toList 1
      "``` [x](/nope) /Views/SettingsView.swift".toList ≠ [] :=
  ⟨c10_fence_line_excluded fs0 "p".toList "/proj".toList false [] [] 1
      "``` [x](/nope) /Views/SettingsView.swift".toList (by decide),
   by decide, by decide⟩

/-- C4: resolution of a normalised target is total (it is a function into
paths, never raising) and case-splits exactly on a leading separator: a
rooted target is the project root joined with the target less all leading
separators, any other target is the canonicalised join with the document's
directory. -/
theorem c4_resolve_target_spec (fs : Fs) (base target : List Char) :
    (target.head? = some '/' →
      resolve_target fs base target =
        pathJoin fs.root (target.dropWhile (fun c => c == '/'))) ∧
    (target.head? ≠ some '/' →
      resolve_target fs base target = fs.canon (pathJoin base target)) := by
  constructor <;> intro h <;> simp [resolve_target, h]

/-- C4 witness: both branches evaluated at concrete targets. -/
theorem c4_resolve_target_spec_wit :
    resolve_target fs0 "/proj/Docs".toList "//a".toList =
      pathJoin fs0.root "a".toList ∧
    resolve_target fs0 "/proj/Docs".toList "a".toList =
      fs0.canon (pathJoin "/proj/Docs".toList "a".toList) :=
  ⟨by
    have h := (c4_resolve_target_spec fs0 "/proj/Docs".toList "//a".toList).1
      (by decide)
    simpa using h,
   (c4_resolve_target_spec fs0 "/proj/Docs".toList "a".toList).2 (by decide)⟩
/-- C9: the file loop factors through each file independently — the head
file's text only contributes its own prefixed findings, and the scan of every
file starts with the fence state `false`, so an unclosed fence in one file
cannot suppress checking in later files. -/
theorem c9_per_file_reset {ε : Type} (fs : Fs)
    (read : List Char → Except ε (List Char)) (p text : List Char)
    (ps : List (List Char)) (h : read p = .ok text) :
    mainLoop fs read (p :: ps) =
      (match mainLoop fs read ps with
       | .error e => .error e
       | .ok (m, l) =>
         .ok ((scanDocText fs p text).1 ++ m,
              (scanDocText fs p text).2 ++ l)) ∧
    scanDocText fs p text =
      (let r := (List.enumFrom 1 (pySplitlines text)).foldl
        (scanStep fs p (parentDir p)) (false, [], [])
       (r.2.1, r.2.2)) := by
  exact ⟨by simp [mainLoop, h], rfl⟩

/-- C9 witness: a document ending in an unclosed fenced block (hiding a dead
link) is followed by a document whose identical dead link is still reported. -/
theorem c9_per_file_reset_wit :
    (mainLoop fs0 readTwoDocs ["/proj/A.md".toList, "/proj/B.md".toList] =
      (match mainLoop fs0 readTwoDocs ["/proj/B.md".toList] with
       | .error e => .error e
       | .ok (m, l) =>
         .ok ((scanDocText fs0 "/proj/A.md".toList "```\n[x](/nope)".toList).1 ++ m,
              (scanDocText fs0 "/proj/A.md".toList "```\n[x](/nope)".toList).2 ++ l))) ∧
    mainLoop fs0 readTwoDocs ["/proj/A.md".toList, "/proj/B.md".toList] =
      .ok ([⟨"/proj/B.md".toList, 1, "/nope".toList⟩], []) :=
  ⟨(c9_per_file_reset fs0 readTwoDocs "/proj/A.md".toList
      "```\n[x](/nope)".toList ["/proj/B.md".toList] rfl).1,
   by rfl⟩

/-- C8: if reading any discovered document fails, the whole run aborts with a
propagated error — `mainRun` yields no report output and no exit status. -/
theorem c8_read_failure_aborts {ε : Type} (fs : Fs)
    (read : List Char → Except ε (List Char)) (paths : List (List Char))
    (p : List Char) (e : ε) (hp : p ∈ paths) (hr : read p = .error e) :
    ∃ e2, mainRun fs read paths = .error e2 := by
  have hloop : ∃ e2, mainLoop fs read paths = .error e2 := by
    induction paths with
    | nil => cases hp
    | cons q ps ih =>
      cases hq : read q with
      | error e3 => exact ⟨e3, by simp [mainLoop, hq]⟩
      | ok t =>
        rcases List.mem_cons.mp hp with rfl | hmem
        · rw [hq] at hr; cases hr
        · obtain ⟨e2, h2⟩ := ih hmem
          exact ⟨e2, by simp [mainLoop, hq, h2]⟩
  obtain ⟨e2, h2⟩ := hloop
  exact ⟨e2, by simp [mainRun, h2]⟩

/-- C8 witness: a run over one unreadable file aborts with an error. -/
theorem c8_read_failure_aborts_wit :
    ∃ e2, mainRun fs0 readFailing ["/proj/README.md".toList] = .error e2 :=
  c8_read_failure_aborts fs0 readFailing ["/proj/README.md".toList]
    "/proj/README.md".toList 7 (by simp) rfl

/-- C5: on a scanned line, the missing-link findings are exactly one finding
per `LINK_RE` match whose normalised target resolves to a non-existent path,
in match order, carrying the source file, the 1-based line number and the raw
pre-normalisation target; in particular `[text](./missing-file.md)` with a
non-existent resolution yields exactly the one finding with raw target
`./missing-file.md`. -/
theorem c5_missing_link_findings (fs : Fs) (path dir : List Char) (n : Nat)
    (line : List Char) :
    lineMissing fs path dir n line =
      ((findLinks line).filter fun raw =>
        match normalize_target raw with
        | none => false
        | some t => !fs.pathExists (resolve_target fs dir t)).map
        (fun raw => (⟨path, n, raw⟩ : MissingLink)) ∧
    lineMissing fs0 "/proj/README.md".toList "/proj".toList 1
      "[text](./missing-file.md)".toList =
      [⟨"/proj/README.md".toList, 1, "./missing-file.md".toList⟩] := by
  refine ⟨?_, by decide⟩
  unfold lineMissing
  generalize findLinks line = L
  induction L with
  | nil => rfl
  | cons a L ih =>
    cases hnt : normalize_target a with
    | none => simp [List.filterMap_cons, List.filter_cons, hnt, ih]
    | some t =>
      cases hex : fs.pathExists (resolve_target fs dir t) <;>
        simp [List.filterMap_cons, List.filter_cons, hnt, hex, ih]

/-- C6: on a scanned line, the legacy findings are one per legacy key in
mapping-declaration order that occurs as a substring, not deduplicated — a
line with the separator-prefixed path yields findings for both key variants —
and a line whose link both fails to resolve and contains a legacy key yields
a missing-link finding and legacy-reference findings in the same step. -/
theorem c6_legacy_findings (path : List Char) (n : Nat) (line : List Char) :
    lineLegacy path n line =
      (LEGACY_PATHS.filter fun pr => containsSub pr.1 line).map
        (fun pr => (⟨path, n, pr.1, pr.2⟩ : LegacyRef)) ∧
    lineLegacy "p".toList 2 "see /Views/OnboardingFlowView.swift".toList =
      [⟨"p".toList, 2, "Views/OnboardingFlowView.swift".toList,
        "Views/Onboarding/OnboardingFlowView.swift".toList⟩,
       ⟨"p".toList, 2, "/Views/OnboardingFlowView.swift".toList,
        "Views/Onboarding/OnboardingFlowView.swift".toList⟩] ∧
    scanStep fs0 "p".toList "/proj".toList (false, [], [])
      (1, "[text](/Views/OnboardingFlowView.swift)".toList) =
      (false,
       [⟨"p".toList, 1, "/Views/OnboardingFlowView.swift".toList⟩],
       [⟨"p".toList, 1, "Views/OnboardingFlowView.swift".toList,
         "Views/Onboarding/OnboardingFlowView.swift".toList⟩,
        ⟨"p".toList, 1, "/Views/OnboardingFlowView.swift".toList,
         "Views/Onboarding/OnboardingFlowView.swift".toList⟩]) := by
  refine ⟨?_, by decide, by decide⟩
  unfold lineLegacy
  generalize LEGACY_PATHS = L
  induction L with
  | nil => rfl
  | cons a L ih =>
    cases hc : containsSub a.1 line <;>
      simp [List.filterMap_cons, List.filter_cons, hc, ih]
/-- C3: normalisation discards a link target (returns `none`) exactly when
the trimmed target is empty, or after optional angle-bracket unwrapping it
begins with `#` or with one of the skip prefixes, or it becomes empty after
dropping the fragment and query suffixes; otherwise it returns the
percent-decoded remainder. -/
theorem c3_normalize_target_spec (t : List Char) :
    (normalize_target t = none ↔
      ((pyStrip t).isEmpty ||
       (unwrapAngle (pyStrip t)).head? == some '#' ||
       SKIP_PREFIXES.any (fun p => p.isPrefixOf (unwrapAngle (pyStrip t))) ||
       (pyStrip (splitBefore '?'
         (splitBefore '#' (unwrapAngle (pyStrip t))))).isEmpty) = true) ∧
    (normalize_target t ≠ none →
      normalize_target t =
        some (pyUnquote (pyStrip (splitBefore '?'
          (splitBefore '#' (unwrapAngle (pyStrip t))))))) := by
  unfold normalize_target
  by_cases h1 : (pyStrip t).isEmpty <;>
    by_cases h2 : (unwrapAngle (pyStrip t)).head? == some '#' <;>
    by_cases h3 :
      SKIP_PREFIXES.any (fun p => p.isPrefixOf (unwrapAngle (pyStrip t))) <;>
    by_cases h4 : (pyStrip (splitBefore '?'
      (splitBefore '#' (unwrapAngle (pyStrip t))))).isEmpty <;>
    simp [h1, h2, h3, h4]

/-- C3 witness: a concrete target with surrounding whitespace and a fragment
is kept and percent-decoded. -/
theorem c3_normalize_target_spec_wit :
    normalize_target " ./a%20b.md#frag ".toList =
      some (pyUnquote (pyStrip (splitBefore '?' (splitBefore '#'
        (unwrapAngle (pyStrip " ./a%20b.md#frag ".toList)))))) :=
  (c3_normalize_target_spec " ./a%20b.md#frag ".toList).2 (by decide)

/-- C1: when every document reads successfully, the run prints the
missing-links section (header, one line per finding in discovery order,
blank line) when non-empty, then the legacy section likewise, then exactly
one success line when both are empty, and exits with status 1 exactly when
some finding was collected and 0 otherwise. -/
theorem c1_report_and_exit {ε : Type} (fs : Fs)
    (read : List Char → Except ε (List Char)) (paths : List (List Char))
    (m : List MissingLink) (l : List LegacyRef)
    (h : mainLoop fs read paths = .ok (m, l)) :
    mainRun fs read paths =
      .ok ((if m.isEmpty then [] else
             "Missing documentation links:".toList ::
               (m.map (fmtMissingLine fs.root) ++ [[]])) ++
           (if l.isEmpty then [] else
             "Legacy path references:".toList ::
               (l.map (fmtLegacyLine fs.root) ++ [[]])) ++
           (if m.isEmpty && l.isEmpty then [okLine] else []),
           if m.isEmpty && l.isEmpty then 0 else 1) ∧
    ((if m.isEmpty && l.isEmpty then (0 : Nat) else 1) = 1 ↔
      (m ≠ [] ∨ l ≠ [])) ∧
    (m = [] → l = [] → mainRun fs read paths = .ok ([okLine], 0)) := by
  refine ⟨by simp [mainRun, h, reportOutput], ?_, ?_⟩
  · rcases m with _ | ⟨a, m⟩ <;> rcases l with _ | ⟨b, l⟩ <;> simp
  · rintro rfl rfl
    simp [mainRun, h, reportOutput]

/-- C1 witness: a run over one readable document with no links and no legacy
substrings prints exactly the success line and returns status 0. -/
theorem c1_report_and_exit_wit :
    mainRun fs0 readPlainDoc ["/proj/README.md".toList] = .ok ([okLine], 0) :=
  (c1_report_and_exit fs0 readPlainDoc ["/proj/README.md".toList] [] []
    rfl).2.2 rfl rfl

/-- C7: document discovery produces a lexicographically sorted, duplicate-free
path list, and the whole scan is a pure function of the discovered tree, so
two runs on the same tree produce identical output. -/
theorem c7_discovery_deterministic (glob : List Char → List (List Char))
    (isFile : List Char → Bool) :
    (iter_doc_files glob isFile).Sorted (fun a b => a ≤ b) ∧
    (iter_doc_files glob isFile).Nodup ∧
    (∀ {ε : Type} (fs : Fs) (read : List Char → Except ε (List Char)),
      mainRun fs read (iter_doc_files glob isFile) =
        mainRun fs read (iter_doc_files glob isFile)) := by
  refine ⟨?_, ?_, fun fs read => rfl⟩
  · exact List.sorted_insertionSort _ _
  · exact ((List.perm_insertionSort _ _).symm).nodup (List.nodup_dedup _)
